import Mathlib

/-!
Verification development for the lit-agentWallet tool policy core.

The definitions below are shallow embeddings of:
* `packages/aw-contracts/src/facets/PKPToolPolicyParameterFacet.sol`
  (the ledger-side parameter store),
* `packages/full-self-signing/src` registry client (`setToolPolicy` gas logic),
* `packages/agent/src/lib/agent.ts` (`LitAgent.executeTool` pipeline),
* `packages/aw-cli/src/lib/handlers/admin/unpermit-tool-for-delegatee.ts`.

Machine integers: Solidity `uint256` values in this facet are only compared
for equality or used as list indices, so they are modelled as `Nat`
(no arithmetic ever approaches `2^256` here: the only arithmetic is
`parameterNames.length - 1` on a dynamic array).  `keccak256(bytes(a)) ==
keccak256(bytes(b))` string comparison is modelled as string equality
(standard collision-free reading).  Addresses are `Nat`, `0` being the
zero address.  `bytes` values are `List Nat`; the Solidity default value
for an absent mapping entry is the empty `bytes`, i.e. `[]`.
-/

/-! ### Ledger model: PKPToolPolicyParameterFacet.sol -/

/-- Error kinds raised by the facet (`PKPToolPolicyErrors`).  `notPKPOwner`
and `toolNotRegistered` are raised by `onlyPKPOwner` / `_verifyToolRegistered`
which live in `PKPToolPolicyBase.sol` (modelled from the spec, see below). -/
inductive SolError where
  | invalidDelegatee
  | notPKPOwner
  | toolNotRegistered
  | arrayLengthMismatch
deriving DecidableEq, Repr

/-- Storage relevant to the parameter facet, flattened from
`PKPToolPolicyStorage.Layout`: per `(pkpTokenId, toolIpfsCid, delegatee)`
an ordered list of parameter names, and per additional `parameterName` a
`bytes` value (mapping default: `[]`).  `ownerOf` and `registered` model the
state consulted by the base-contract guards. -/
structure ParamStore where
  names : Nat → String → Nat → List String
  values : Nat → String → Nat → String → List Nat
  ownerOf : Nat → Nat
  registered : Nat → String → Bool

/-- Modelled from the spec: `onlyPKPOwner` is a modifier defined in
`PKPToolPolicyBase.sol`, which is not in the sources; the spec says "all
mutating operations require the transaction's proven signer to be the PKP
owner" and "caller not PKP owner → fails before any mutation". -/
def onlyPKPOwner (l : ParamStore) (caller pkpTokenId : Nat) : Except SolError Unit :=
  if caller = l.ownerOf pkpTokenId then .ok () else .error .notPKPOwner

/-- Modelled from the spec: `_verifyToolRegistered` is defined in
`PKPToolPolicyBase.sol`, which is not in the sources; the spec says "a policy
or parameter operation on a (tool, delegatee) pair requires the tool to
already be registered under the PKP" and "tool not registered under PKP →
fails before any mutation". -/
def verifyToolRegistered (l : ParamStore) (pkpTokenId : Nat) (toolIpfsCid : String) :
    Except SolError Unit :=
  if l.registered pkpTokenId toolIpfsCid then .ok () else .error .toolNotRegistered

/-- The linear scan both loops in the facet perform: index of the first
name whose `keccak256` hash matches (modelled as string equality). -/
def findNameIdx (parameterNames : List String) (parameterName : String) : Option Nat :=
  match parameterNames with
  | [] => none
  | m :: rest =>
    if m == parameterName then some 0
    else (findNameIdx rest parameterName).map (fun i => i + 1)

/-- Lines 69-81 of the facet: register the parameter name only if the scan
does not find it (duplicate protection). -/
def registerNameIfAbsent (parameterNames : List String) (parameterName : String) :
    List String :=
  if (findNameIdx parameterNames parameterName).isSome then parameterNames
  else parameterNames ++ [parameterName]

/-- Lines 112-124 of the facet: scan the name list; if found, replace the
found index with the last element (unless already last) and pop. -/
def removeNameSwap (parameterNames : List String) (parameterName : String) :
    List String :=
  match findNameIdx parameterNames parameterName with
  | none => parameterNames
  | some i =>
    if i = parameterNames.length - 1 then parameterNames.dropLast
    else (parameterNames.set i (parameterNames.getLastD "")).dropLast

/-- `getToolPolicyParameterNamesForDelegatee` (facet lines 17-28): read-only,
no ownership guard; zero-delegatee check, then tool-registration check. -/
def getToolPolicyParameterNamesForDelegatee (l : ParamStore) (pkpTokenId : Nat)
    (toolIpfsCid : String) (delegatee : Nat) : Except SolError (List String) :=
  if delegatee = 0 then .error .invalidDelegatee
  else
    match verifyToolRegistered l pkpTokenId toolIpfsCid with
    | .error e => .error e
    | .ok _ => .ok (l.names pkpTokenId toolIpfsCid delegatee)

/-- `getToolPolicyParameterForDelegatee` (facet lines 36-48). -/
def getToolPolicyParameterForDelegatee (l : ParamStore) (pkpTokenId : Nat)
    (toolIpfsCid : String) (delegatee : Nat) (parameterName : String) :
    Except SolError (List Nat) :=
  if delegatee = 0 then .error .invalidDelegatee
  else
    match verifyToolRegistered l pkpTokenId toolIpfsCid with
    | .error e => .error e
    | .ok _ => .ok (l.values pkpTokenId toolIpfsCid delegatee parameterName)

/-- `setToolPolicyParameterForDelegatee` (facet lines 56-93): owner modifier,
zero-delegatee check, registration check, then name registration (only if
absent) and unconditional value overwrite. -/
def setToolPolicyParameterForDelegatee (l : ParamStore) (caller pkpTokenId : Nat)
    (toolIpfsCid : String) (delegatee : Nat) (parameterName : String)
    (parameterValue : List Nat) : Except SolError ParamStore :=
  match onlyPKPOwner l caller pkpTokenId with
  | .error e => .error e
  | .ok _ =>
    if delegatee = 0 then .error .invalidDelegatee
    else
      match verifyToolRegistered l pkpTokenId toolIpfsCid with
      | .error e => .error e
      | .ok _ =>
        let ns := l.names pkpTokenId toolIpfsCid delegatee
        .ok { l with
          names := fun p t d =>
            if p = pkpTokenId ∧ t = toolIpfsCid ∧ d = delegatee then
              registerNameIfAbsent ns parameterName
            else l.names p t d,
          values := fun p t d n =>
            if p = pkpTokenId ∧ t = toolIpfsCid ∧ d = delegatee ∧ n = parameterName then
              parameterValue
            else l.values p t d n }

/-- `removeToolPolicyParameterForDelegatee` (facet lines 100-135): swap-with-last
removal from the name list (no-op when absent), unconditional value delete
(mapping entry reset to the default empty `bytes`). -/
def removeToolPolicyParameterForDelegatee (l : ParamStore) (caller pkpTokenId : Nat)
    (toolIpfsCid : String) (delegatee : Nat) (parameterName : String) :
    Except SolError ParamStore :=
  match onlyPKPOwner l caller pkpTokenId with
  | .error e => .error e
  | .ok _ =>
    if delegatee = 0 then .error .invalidDelegatee
    else
      match verifyToolRegistered l pkpTokenId toolIpfsCid with
      | .error e => .error e
      | .ok _ =>
        let ns := l.names pkpTokenId toolIpfsCid delegatee
        .ok { l with
          names := fun p t d =>
            if p = pkpTokenId ∧ t = toolIpfsCid ∧ d = delegatee then
              removeNameSwap ns parameterName
            else l.names p t d,
          values := fun p t d n =>
            if p = pkpTokenId ∧ t = toolIpfsCid ∧ d = delegatee ∧ n = parameterName then
              []
            else l.values p t d n }

/-- The loop body of `batchSetToolPolicyParametersForDelegatee` (facet lines
154-163): ordered sequence of calls to the single-item setter (which re-runs
its own guards, as a Solidity public-function call does). -/
def batchSetGo (caller pkpTokenId : Nat) (toolIpfsCid : String) (delegatee : Nat) :
    ParamStore → List String → List (List Nat) → Except SolError ParamStore
  | l, n :: ns, v :: vs =>
    match setToolPolicyParameterForDelegatee l caller pkpTokenId toolIpfsCid delegatee n v with
    | .error e => .error e
    | .ok l2 => batchSetGo caller pkpTokenId toolIpfsCid delegatee l2 ns vs
  | l, _, _ => .ok l

/-- `batchSetToolPolicyParametersForDelegatee` (facet lines 143-164): owner
modifier first (Solidity runs modifiers before the body), then the array
length check, then the loop.  An `Except.error` result models a Solidity
revert: no state change persists. -/
def batchSetToolPolicyParametersForDelegatee (l : ParamStore) (caller pkpTokenId : Nat)
    (toolIpfsCid : String) (delegatee : Nat) (parameterNames : List String)
    (parameterValues : List (List Nat)) : Except SolError ParamStore :=
  match onlyPKPOwner l caller pkpTokenId with
  | .error e => .error e
  | .ok _ =>
    if parameterNames.length ≠ parameterValues.length then .error .arrayLengthMismatch
    else batchSetGo caller pkpTokenId toolIpfsCid delegatee l parameterNames parameterValues

/-! ### Registry client: full-self-signing `setToolPolicy` -/

/-- The unsigned transaction assembled by `setToolPolicy` before signing. -/
structure UnsignedTx where
  dest : String
  data : String
  gasLimit : Nat
deriving DecidableEq, Repr

/-- Line 74 of the registry client: `gasEstimate.mul(120).div(100)`.
`BigNumber` division truncates, and the estimate is non-negative, so this is
`Nat` floor division after the multiplication. -/
def gasLimitWithBuffer (gasEstimate : Nat) : Nat :=
  gasEstimate * 120 / 100

/-- Lines 60-75 of the registry client: the finalized unsigned transaction
`{to, data, gasLimit}` handed to the signing callback. -/
def setToolPolicyFinalTx (contractAddress : String) (data : String)
    (gasEstimate : Nat) : UnsignedTx :=
  { dest := contractAddress, data := data, gasLimit := gasLimitWithBuffer gasEstimate }

/-! ### Execution pipeline: agent.ts `LitAgent.executeTool`

External collaborators (tool catalog, permission handling, parameter
collection, the on-chain policy read, the policy decoder, the tool-specific
validator, the Lit Action executor and the platform JSON parser) are supplied
as oracles in `AgentEnv`: each field fixes the outcome that collaborator
produces during one `executeTool` invocation, exactly where the TypeScript
awaits it.  The validator (`validateParamsAgainstPolicy`, an external
capability) throws `Error` instances, so its failures are modelled as the
error message; everything crossing the pipeline boundary is a `JsError`. -/

/-- The `LitAgentErrorType` enum members used by `executeTool`. -/
inductive LitAgentErrorType where
  | TOOL_PERMISSION_FAILED
  | TOOL_POLICY_REGISTRATION_FAILED
  | TOOL_VALIDATION_FAILED
  | TOOL_EXECUTION_FAILED
deriving DecidableEq, Repr

/-- The context bag attached to a `LitAgentError`:
`validationCtx` models `{ tool, policy, originalError }` (agent.ts lines
162-166 and 169-175); `executionCtx` models `{ ipfsCid, params, originalError }`
(agent.ts line 240); `registrationCtx` models `{ ipfsCid, policy, error }`
(registry client). -/
inductive ErrCtx where
  | noCtx
  | validationCtx (toolName : String) (policy : String)
  | executionCtx (ipfsCid : String) (params : List (String × String))
  | registrationCtx (ipfsCid : String)
deriving DecidableEq, Repr

/-- A JavaScript thrown value as `executeTool` can observe it:
a `LitAgentError` (tagged kind, message, context), a plain `Error`
(only a message), or a non-`Error` value (no `.message` property). -/
inductive JsError where
  | lit (t : LitAgentErrorType) (msg : String) (ctx : ErrCtx)
  | plain (msg : String)
  | nonError (payload : String)
deriving DecidableEq, Repr

/-- `error.message` when `error instanceof Error`, otherwise none. -/
def errMessage : JsError → Option String
  | .lit _ m _ => some m
  | .plain m => some m
  | .nonError _ => none

/-- `error instanceof LitAgentError`. -/
def isLitAgentError : JsError → Bool
  | .lit _ _ _ => true
  | _ => false

/-- `error instanceof Error ? error.message : 'Failed to execute tool'`
(agent.ts line 239). -/
def wrapMessage : JsError → String
  | .lit _ m _ => m
  | .plain m => m
  | .nonError _ => "Failed to execute tool"

/-- Caller-visible parameter maps (`Record<string, string>`). -/
abbrev Params := List (String × String)

/-- Decoded policy blobs are opaque to the pipeline. -/
abbrev PolicyVal := String

/-- Tool metadata resolved by `findTool`. -/
structure ToolMeta where
  name : String
  description : String
deriving DecidableEq, Repr

/-- The raw Lit Action result: free-text `response` and `logs` fields,
either possibly absent. -/
structure RawResult where
  response : Option String
  logs : Option String
deriving DecidableEq, Repr

/-- The value `executeTool` resolves with:
`{ success: boolean; result?: any; reason?: string }`. -/
structure ExecResult where
  success : Bool
  reason : Option String
  result : Option RawResult
deriving DecidableEq, Repr

/-- JavaScript values produced by `JSON.parse`, as far as the result
interpretation inspects them (arrays are never treated specially by this
code path and are omitted). -/
inductive Json where
  | null
  | boolVal (b : Bool)
  | num (n : Int)
  | str (s : String)
  | obj (fields : List (String × Json))

/-- Property lookup on a parsed value: `none` models `undefined`
(also for property access on a non-object). -/
def getField : Json → String → Option Json
  | .obj fields, k => (fields.find? (fun p => p.1 == k)).map (fun p => p.2)
  | _, _ => none

/-- JavaScript truthiness of a parsed value. -/
def truthy : Json → Bool
  | .null => false
  | .boolVal b => b
  | .num n => n != 0
  | .str s => !s.isEmpty
  | .obj _ => true

/-- Truthiness of a property that may be absent (`undefined` is falsy). -/
def fieldTruthy (j : Json) (k : String) : Bool :=
  match getField j k with
  | some v => truthy v
  | none => false

/-- Template-literal coercion of a parsed value to a string. -/
def jsToString : Json → String
  | .null => "null"
  | .boolVal b => if b then "true" else "false"
  | .num n => toString n
  | .str s => s
  | .obj _ => "[object Object]"

/-- `response.status === 'error'` (agent.ts line 187). -/
def isStatusError (r : Json) : Bool :=
  match getField r "status" with
  | some (.str s) => s == "error"
  | _ => false

/-- Agent.ts lines 189-201: start from `response.error`, then append the
detail lines for the detail fields that are truthy.  `response.details.error`
is read through optional chaining, so `.message` is only consulted on an
object.  When `response.error` is absent the JavaScript `+=` of the first
appended line coerces `undefined` to the string below. -/
def buildJsonErrorReason (r : Json) : String :=
  let base :=
    match getField r "error" with
    | some v => jsToString v
    | none => "undefined"
  match getField r "details" with
  | some d =>
    if truthy d then
      let s1 :=
        if fieldTruthy d "reason" then
          "\nReason: " ++ jsToString ((getField d "reason").getD .null)
        else ""
      let s2 :=
        if fieldTruthy d "code" then
          "\nCode: " ++ jsToString ((getField d "code").getD .null)
        else ""
      let s3 :=
        match getField d "error" with
        | some (.obj fs) =>
          match getField (.obj fs) "message" with
          | some m => if truthy m then "\nDetails: " ++ jsToString m else ""
          | none => ""
        | _ => ""
      base ++ s1 ++ s2 ++ s3
    else base
  | none => base

/-- Does the character list start with the literal `Error:`? -/
def isMarkerPrefix : List Char → Bool
  | 'E' :: 'r' :: 'r' :: 'o' :: 'r' :: ':' :: _ => true
  | _ => false

/-- `logs.includes('Error:')` (agent.ts line 215). -/
def containsErrorMarker : List Char → Bool
  | [] => false
  | c :: cs => isMarkerPrefix (c :: cs) || containsErrorMarker cs

/-- One attempted match of `/Error:([^\n]+)/` at the head of the list:
the capture group needs at least one non-newline character. -/
def errorCaptureAt (cs : List Char) : Option (List Char) :=
  match cs with
  | 'E' :: 'r' :: 'r' :: 'o' :: 'r' :: ':' :: rest =>
    let cap := rest.takeWhile (fun c => c != '\n')
    if cap.isEmpty then none else some cap
  | _ => none

/-- `logs.match(/Error:([^\n]+)/)` (agent.ts line 216): the capture group of
the first position where the whole pattern matches. -/
def firstErrorCapture : List Char → Option (List Char)
  | [] => none
  | c :: cs =>
    match errorCaptureAt (c :: cs) with
    | some cap => some cap
    | none => firstErrorCapture cs

/-- ASCII whitespace as trimmed by JavaScript `String.prototype.trim`
(the captured text of the log scan contains no newline, but may carry
leading or trailing spaces and tabs). -/
def isJsWhitespace (c : Char) : Bool :=
  c == ' ' || c == '\t' || c == '\n' || c == '\r' || c == '\x0b' || c == '\x0c'

/-- `errorMatch[1].trim()` (agent.ts line 220): strip whitespace from both
ends of the captured text. -/
def trimChars (cs : List Char) : List Char :=
  ((cs.dropWhile isJsWhitespace).reverse.dropWhile isJsWhitespace).reverse

/-- Agent.ts lines 184-212: the JSON branch of the result interpretation.
`parsed` is the outcome of the platform `JSON.parse(result.response)`
(`none` models a parse exception, which the code swallows).  The branch
fires only when `result.response` is truthy, parses, and carries
`status === 'error'`; it then produces the failure reason. -/
def jsonFailureReason (result : RawResult) (parsed : Option Json) : Option String :=
  match result.response with
  | some resp =>
    if resp.isEmpty then none
    else
      match parsed with
      | some r => if isStatusError r then some (buildJsonErrorReason r) else none
      | none => none
  | none => none

/-- Agent.ts lines 184-229: interpret the raw execution result with the fixed
precedence: JSON-status branch, then log scan, then success. -/
def interpretResult (result : RawResult) (parsed : Option Json) : ExecResult :=
  match jsonFailureReason result parsed with
  | some reason => { success := false, reason := some reason, result := some result }
  | none =>
    match result.logs with
    | some logs =>
      if !logs.isEmpty && containsErrorMarker logs.toList then
        match firstErrorCapture logs.toList with
        | some cap =>
          { success := false,
            reason := some ("Lit Action error: " ++ String.mk (trimChars cap)),
            result := some result }
        | none => { success := true, reason := none, result := some result }
      else { success := true, reason := none, result := some result }
    | none => { success := true, reason := none, result := some result }

/-- Events recorded while the pipeline runs, at the call sites of the
validator, the failed-policy callback and the executor. -/
inductive AgentEvent where
  | validateCall (params : Params)
  | policyCallbackCall
  | executeCall
deriving DecidableEq, Repr

/-- The outcomes of every external collaborator awaited by one
`executeTool` invocation.  `validateOutcome i p` is the outcome of the
`(i+1)`-th call to `validateParamsAgainstPolicy` when applied to `p`
(`Except.error` carries the thrown `Error`'s message). -/
structure AgentEnv where
  findTool : Except JsError ToolMeta
  permission : Except JsError (Option String)
  collectParams : Except JsError Params
  fetchPolicy : Except JsError (List Nat)
  decodePolicy : Except JsError PolicyVal
  validateOutcome : Nat → Params → Except String Unit
  failedPolicyCallback : Option (Params → PolicyVal → String → Except JsError (Option Params))
  executeAction : Params → Except JsError RawResult
  parseResponse : String → Option Json

/-- Outcome of the permission block (agent.ts lines 78-112). -/
inductive PermOutcome where
  | earlyFailure (r : ExecResult)
  | proceed (txHash : Option String)
  | thrown (e : JsError)
deriving DecidableEq, Repr

/-- Agent.ts lines 78-112: the inner catch around `handleToolPermission`.
A `LitAgentError` of kind `TOOL_PERMISSION_FAILED` whose message is exactly
`Permission denied by user`, or of kind `TOOL_POLICY_REGISTRATION_FAILED`
with any message, becomes an early `{success:false, reason}` return; every
other failure is rethrown. -/
def permissionStage (outcome : Except JsError (Option String)) : PermOutcome :=
  match outcome with
  | .ok tx => .proceed tx
  | .error e =>
    match e with
    | .lit .TOOL_PERMISSION_FAILED m c =>
      if m = "Permission denied by user" then
        .earlyFailure { success := false, reason := some m, result := none }
      else .thrown (.lit .TOOL_PERMISSION_FAILED m c)
    | .lit .TOOL_POLICY_REGISTRATION_FAILED m _ =>
      .earlyFailure { success := false, reason := some m, result := none }
    | _ => .thrown e

/-- Agent.ts lines 124-128 (the body of the policy-fetch try block):
read the current policy; when the policy bytes are non-empty, look the tool
up in the registry and decode (both folded into the `decode` oracle). -/
def policyFetchAttempt (fetch : Except JsError (List Nat))
    (decode : Except JsError PolicyVal) : Except JsError (Option PolicyVal) :=
  match fetch with
  | .error e => .error e
  | .ok policyBytes =>
    if policyBytes.length > 0 then
      match decode with
      | .ok p => .ok (some p)
      | .error e => .error e
    else .ok none

/-- Agent.ts lines 121-139: the policy-fetch stage with its catch: a failure
that is an `Error` whose message is exactly `Tool policy manager not
initialized` is swallowed (`decodedPolicy` stays null); every other failure
is rethrown. -/
def policyFetchStage (fetch : Except JsError (List Nat))
    (decode : Except JsError PolicyVal) : Except JsError (Option PolicyVal) :=
  match policyFetchAttempt fetch decode with
  | .ok p => .ok p
  | .error e =>
    if errMessage e = some "Tool policy manager not initialized" then .ok none
    else .error e

/-- Agent.ts lines 141-178: validate against the decoded policy.  On a
validation failure with a `failedPolicyCallback` present (the thrown value is
always an `Error` here, so the `error instanceof Error` guard holds), invoke
the callback once; replacement parameters are validated once more and a
second failure propagates as the raw `Error`; no replacement produces a
`TOOL_VALIDATION_FAILED` `LitAgentError` carrying the tool and policy. -/
def validationStage (env : AgentEnv) (tool : ToolMeta) (policy : PolicyVal)
    (params : Params) : Except JsError Params × List AgentEvent :=
  match env.validateOutcome 0 params with
  | .ok _ => (.ok params, [.validateCall params])
  | .error m =>
    match env.failedPolicyCallback with
    | none =>
      (.error (.lit .TOOL_VALIDATION_FAILED m (.validationCtx tool.name policy)),
       [.validateCall params])
    | some cb =>
      match cb params policy m with
      | .error e => (.error e, [.validateCall params, .policyCallbackCall])
      | .ok none =>
        (.error (.lit .TOOL_VALIDATION_FAILED m (.validationCtx tool.name policy)),
         [.validateCall params, .policyCallbackCall])
      | .ok (some newParams) =>
        match env.validateOutcome 1 newParams with
        | .ok _ =>
          (.ok newParams,
           [.validateCall params, .policyCallbackCall, .validateCall newParams])
        | .error m2 =>
          (.error (.plain m2),
           [.validateCall params, .policyCallbackCall, .validateCall newParams])

/-- Agent.ts lines 180-229: dispatch execution and interpret the result. -/
def execStage (env : AgentEnv) (params : Params) (tr : List AgentEvent) :
    Except JsError ExecResult × List AgentEvent :=
  match env.executeAction params with
  | .error e => (.error e, tr ++ [.executeCall])
  | .ok result =>
    let parsed :=
      match result.response with
      | some s => env.parseResponse s
      | none => none
    (.ok (interpretResult result parsed), tr ++ [.executeCall])

/-- The body of the outer try of `executeTool` (agent.ts lines 74-229). -/
def runExecuteTool (env : AgentEnv) : Except JsError ExecResult × List AgentEvent :=
  match env.findTool with
  | .error e => (.error e, [])
  | .ok tool =>
    match permissionStage env.permission with
    | .earlyFailure r => (.ok r, [])
    | .thrown e => (.error e, [])
    | .proceed _ =>
      match env.collectParams with
      | .error e => (.error e, [])
      | .ok finalParams =>
        match policyFetchStage env.fetchPolicy env.decodePolicy with
        | .error e => (.error e, [])
        | .ok none => execStage env finalParams []
        | .ok (some policy) =>
          match validationStage env tool policy finalParams with
          | (.error e, tr) => (.error e, tr)
          | (.ok validatedParams, tr) => execStage env validatedParams tr

/-- `LitAgent.executeTool` (agent.ts lines 51-243) with its boundary catch
(lines 230-242): a `LitAgentError` is converted to a resolved
`{success:false, reason}`; any other failure is wrapped into a thrown
`TOOL_EXECUTION_FAILED` `LitAgentError` carrying `{ipfsCid, params}`. -/
def executeTool (env : AgentEnv) (ipfsCid : String) (initialParams : Params) :
    Except JsError ExecResult × List AgentEvent :=
  match runExecuteTool env with
  | (.ok r, tr) => (.ok r, tr)
  | (.error e, tr) =>
    match e with
    | .lit _ m _ => (.ok { success := false, reason := some m, result := none }, tr)
    | _ =>
      (.error (.lit .TOOL_EXECUTION_FAILED (wrapMessage e)
        (.executionCtx ipfsCid initialParams)), tr)

/-- The pipeline resolved with a `{success:false}` value (as opposed to
rejecting). -/
def returnedFailure : Except JsError ExecResult → Bool
  | .ok r => !r.success
  | .error _ => false

/-- The context bag of a rejection, when the pipeline rejects with a
`LitAgentError`. -/
def thrownCtx : Except JsError ExecResult → Option ErrCtx
  | .error (.lit _ _ c) => some c
  | _ => none

/-- The policy recorded in a context bag, if any. -/
def errCtxPolicy : ErrCtx → Option PolicyVal
  | .validationCtx _ p => some p
  | _ => none

/-! ### CLI: `handleUnpermitToolForDelegatee` -/

/-- The three disjoint tool classes of `RegisteredToolsResult`, reduced to
their key sets (the tool CIDs); the attached metadata plays no role in this
handler's control flow. -/
structure RegisteredToolsResult where
  toolsWithPolicies : List String
  toolsWithoutPolicies : List String
  toolsUnknownWithPolicies : List String
deriving DecidableEq, Repr

/-- `AwCliError` kinds raised by the unpermit handler. -/
inductive CliError where
  | noPermittedTools (msg : String)
  | cancelled (msg : String)
deriving DecidableEq, Repr

/-- Observable interactions of the handler: the two prompts and the final
registry mutation. -/
inductive CliEvent where
  | promptDelegatee
  | promptTool
  | unpermitCall (cid : String)
deriving DecidableEq, Repr

/-- Oracles for the handler's collaborators: the admin queries and the two
interactive prompts (a `none` choice models the user cancelling). -/
structure UnpermitEnv where
  registeredTools : Option RegisteredToolsResult
  delegateeChoice : Option String
  permittedTools : String → List String
  toolChoice : List String → Option String

/-- `handleUnpermitToolForDelegatee` (unpermit-tool-for-delegatee.ts lines
71-149), before its logging catch: check that the PKP has any registered
tools, prompt for a delegatee, filter each tool class by the delegatee's
permitted CIDs, check the filtered classes are not all empty, prompt for a
tool (the choices list only the first two classes) and unpermit it.
The second component records the interactions in order. -/
def handleUnpermitToolForDelegatee (env : UnpermitEnv) :
    Except CliError Unit × List CliEvent :=
  match env.registeredTools with
  | none => (.error (.noPermittedTools "No permitted tools found."), [])
  | some rt =>
    if rt.toolsWithPolicies.isEmpty && rt.toolsWithoutPolicies.isEmpty &&
        rt.toolsUnknownWithPolicies.isEmpty then
      (.error (.noPermittedTools "No permitted tools found."), [])
    else
      match env.delegateeChoice with
      | none =>
        (.error (.cancelled "Unpermit tool for delegatee cancelled."), [.promptDelegatee])
      | some delegatee =>
        let permitted := env.permittedTools delegatee
        let f1 := rt.toolsWithPolicies.filter (fun c => permitted.contains c)
        let f2 := rt.toolsWithoutPolicies.filter (fun c => permitted.contains c)
        let f3 := rt.toolsUnknownWithPolicies.filter (fun c => permitted.contains c)
        if f1.isEmpty && f2.isEmpty && f3.isEmpty then
          (.error (.noPermittedTools "No permitted tools found for this delegatee."),
           [.promptDelegatee])
        else
          match env.toolChoice (f1 ++ f2) with
          | none =>
            (.error (.cancelled "Unpermit tool for delegatee cancelled."),
             [.promptDelegatee, .promptTool])
          | some cid =>
            (.ok (), [.promptDelegatee, .promptTool, .unpermitCall cid])

/-! ### Concrete instances used by witnesses and counterexamples -/

/-- Repeated invocations of the single-item setter with the same parameter
name: the call sequence quantified over by the idempotence property. -/
def setParamsSeq (caller pkpTokenId : Nat) (toolIpfsCid : String) (delegatee : Nat)
    (parameterName : String) :
    ParamStore → List (List Nat) → Except SolError ParamStore
  | l, [] => .ok l
  | l, v :: vs =>
    match setToolPolicyParameterForDelegatee l caller pkpTokenId toolIpfsCid delegatee
        parameterName v with
    | .error e => .error e
    | .ok l2 => setParamsSeq caller pkpTokenId toolIpfsCid delegatee parameterName l2 vs

/-- An empty store: PKP 1 owned by address 7, tool "cid" registered. -/
def sampleStore : ParamStore :=
  { names := fun _ _ _ => []
    values := fun _ _ _ _ => []
    ownerOf := fun _ => 7
    registered := fun p t => p == 1 && t == "cid" }

/-- A store whose every triple carries names `a`, `b` with values. -/
def sampleStore2 : ParamStore :=
  { names := fun _ _ _ => ["a", "b"]
    values := fun _ _ _ n => if n == "a" then [1] else if n == "b" then [2] else []
    ownerOf := fun _ => 7
    registered := fun _ _ => true }

/-- The spec's result-interpretation example response,
`'\x7b"status":"error","error":"bad input","details":\x7b"reason":"x","code":42\x7d\x7d'`. -/
def specResponseString : String :=
  "\x7b\"status\":\"error\",\"error\":\"bad input\",\"details\":\x7b\"reason\":\"x\",\"code\":42\x7d\x7d"

/-- What `JSON.parse` yields on `specResponseString`. -/
def specExampleJson : Json :=
  .obj [("status", .str "error"), ("error", .str "bad input"),
    ("details", .obj [("reason", .str "x"), ("code", .num 42)])]

/-- The same response with `"code":0` (a present but falsy detail field). -/
def specResponseStringCodeZero : String :=
  "\x7b\"status\":\"error\",\"error\":\"bad input\",\"details\":\x7b\"reason\":\"x\",\"code\":0\x7d\x7d"

/-- What `JSON.parse` yields on `specResponseStringCodeZero`. -/
def specExampleJsonCodeZero : Json :=
  .obj [("status", .str "error"), ("error", .str "bad input"),
    ("details", .obj [("reason", .str "x"), ("code", .num 0)])]

/-- Raw result for the JSON-wins-over-log-scan example: an error response
together with logs that also carry an `Error:` marker. -/
def rawA : RawResult :=
  { response := some specResponseString, logs := some "Error: oops" }

/-- Raw result for the log-scan example: a non-JSON response and logs
carrying `Error: oops` mid-text. -/
def rawB : RawResult :=
  { response := some "not json", logs := some "abcError: oops\nmore" }

/-- Raw result for the falsy-detail-field example. -/
def rawZ : RawResult :=
  { response := some specResponseStringCodeZero, logs := none }

/-- Raw result whose logs contain the substring `Error:` only immediately
before a newline, so `/Error:([^\n]+)/` has no match. -/
def c2Raw : RawResult :=
  { response := some "not json", logs := some "Error:\nmore" }

/-- Pipeline oracles leading to `c2Raw` with no policy on file. -/
def c2Env : AgentEnv :=
  { findTool := .ok { name := "t", description := "d" }
    permission := .ok none
    collectParams := .ok []
    fetchPolicy := .ok []
    decodePolicy := .ok ""
    validateOutcome := fun _ _ => .ok ()
    failedPolicyCallback := none
    executeAction := fun _ => .ok c2Raw
    parseResponse := fun _ => none }

/-- Pipeline oracles whose very first step rejects with a tagged error. -/
def c1Env : AgentEnv :=
  { findTool := .error (.lit .TOOL_VALIDATION_FAILED "boom" .noCtx)
    permission := .ok none
    collectParams := .ok []
    fetchPolicy := .ok []
    decodePolicy := .ok ""
    validateOutcome := fun _ _ => .ok ()
    failedPolicyCallback := none
    executeAction := fun _ => .ok { response := none, logs := none }
    parseResponse := fun _ => none }

/-- Pipeline oracles leading to a failed validation whose failed-policy
callback supplies replacement parameters that fail validation again. -/
def c4EnvSecondFailure : AgentEnv :=
  { findTool := .ok { name := "swap", description := "token swap" }
    permission := .ok none
    collectParams := .ok [("amount", "5")]
    fetchPolicy := .ok [1]
    decodePolicy := .ok "maxAmount:3"
    validateOutcome := fun i _ =>
      if i = 0 then .error "Amount exceeds policy maximum"
      else .error "Replacement amount still exceeds policy maximum"
    failedPolicyCallback := some (fun _ _ _ => .ok (some [("amount", "9")]))
    executeAction := fun _ => .ok { response := none, logs := none }
    parseResponse := fun _ => none }

/-- Pipeline oracles leading to a failed validation whose failed-policy
callback returns no replacement parameters. -/
def c4EnvNoReplacement : AgentEnv :=
  { findTool := .ok { name := "swap", description := "token swap" }
    permission := .ok none
    collectParams := .ok [("amount", "5")]
    fetchPolicy := .ok [1]
    decodePolicy := .ok "maxAmount:3"
    validateOutcome := fun _ _ => .error "Amount exceeds policy maximum"
    failedPolicyCallback := some (fun _ _ _ => .ok none)
    executeAction := fun _ => .ok { response := none, logs := none }
    parseResponse := fun _ => none }

/-- CLI oracles: the PKP has one registered tool, but the selected delegatee
is permitted none of the registered tools. -/
def c9Env : UnpermitEnv :=
  { registeredTools := some ⟨["QmA"], [], []⟩
    delegateeChoice := some "0xdead"
    permittedTools := fun _ => []
    toolChoice := fun _ => none }

/-! ### Supporting lemmas -/

/-- The facet's linear scan finds nothing exactly when the name is absent. -/
theorem findNameIdx_eq_none_iff (ns : List String) (n : String) :
    findNameIdx ns n = none ↔ n ∉ ns := by
  induction ns with
  | nil => simp [findNameIdx]
  | cons m rest ih =>
    by_cases h : (m == n) = true
    · have hmn : m = n := eq_of_beq h
      subst hmn
      simp [findNameIdx]
    · have hmn : m ≠ n := by
        intro hh
        exact h (by simp [hh])
      simp [findNameIdx, h, Option.map_eq_none', ih, Ne.symm hmn]

/-- The scan succeeds exactly when the name is present. -/
theorem findNameIdx_isSome_iff (ns : List String) (n : String) :
    (findNameIdx ns n).isSome = true ↔ n ∈ ns := by
  rw [Option.isSome_iff_ne_none, ne_eq, findNameIdx_eq_none_iff, not_not]

/-- A found index is within bounds. -/
theorem findNameIdx_lt_length (ns : List String) (n : String) (i : Nat)
    (h : findNameIdx ns n = some i) : i < ns.length := by
  induction ns generalizing i with
  | nil => simp [findNameIdx] at h
  | cons m rest ih =>
    unfold findNameIdx at h
    by_cases hm : (m == n) = true
    · rw [if_pos hm] at h
      cases h
      simp
    · rw [if_neg hm] at h
      cases hf : findNameIdx rest n with
      | none => rw [hf] at h; simp at h
      | some j =>
        rw [hf] at h
        simp at h
        have := ih j hf
        simp [List.length_cons]
        omega

/-- After the duplicate-protected insertion the name occurs exactly once,
provided it occurred at most once before (the reachable-state invariant). -/
theorem count_registerNameIfAbsent (ns : List String) (n : String)
    (h : ns.count n ≤ 1) : (registerNameIfAbsent ns n).count n = 1 := by
  unfold registerNameIfAbsent
  by_cases hm : n ∈ ns
  · rw [if_pos ((findNameIdx_isSome_iff ns n).2 hm)]
    have hpos : 0 < ns.count n := List.count_pos_iff.2 hm
    omega
  · rw [if_neg (by simp [findNameIdx_isSome_iff, hm])]
    rw [List.count_append, List.count_eq_zero.2 hm, List.count_singleton]
    simp

/-- The insertion never drops an occurrence bound for any name. -/
theorem count_registerNameIfAbsent_le (ns : List String) (n m : String)
    (h : ns.count n ≤ 1) : (registerNameIfAbsent ns m).count n ≤ 1 := by
  unfold registerNameIfAbsent
  by_cases hf : (findNameIdx ns m).isSome = true
  · rw [if_pos hf]; exact h
  · rw [if_neg hf]
    have hm : m ∉ ns := by
      intro hmem
      exact hf ((findNameIdx_isSome_iff ns m).2 hmem)
    by_cases hnm : m = n
    · subst hnm
      rw [List.count_append, List.count_eq_zero.2 hm, List.count_singleton]
      simp
    · rw [List.count_append, List.count_singleton]
      simp only [beq_iff_eq, if_neg hnm]
      omega

/-- `dropLast` distributes over a cons with a nonempty tail. -/
theorem dropLast_cons_ne {α : Type} (x : α) (l : List α) (h : l ≠ []) :
    (x :: l).dropLast = x :: l.dropLast := by
  cases l with
  | nil => exact absurd rfl h
  | cons y ys => rfl

/-- `getLastD` ignores its default on a nonempty list. -/
theorem getLastD_ne_nil {α : Type} (l : List α) (a b : α) (h : l ≠ []) :
    l.getLastD a = l.getLastD b := by
  cases l with
  | nil => exact absurd rfl h
  | cons x xs => rw [List.getLastD_cons, List.getLastD_cons]

/-- The swap-with-last removal leaves an absent name's list untouched. -/
theorem removeNameSwap_eq_of_not_mem (ns : List String) (n : String)
    (h : n ∉ ns) : removeNameSwap ns n = ns := by
  unfold removeNameSwap
  rw [(findNameIdx_eq_none_iff ns n).2 h]

/-- Swap-with-last removal at the head of the list is a permutation of the
tail. -/
theorem removeNameSwap_cons_self (n : String) (rest : List String) :
    (removeNameSwap (n :: rest) n).Perm rest := by
  have h0 : findNameIdx (n :: rest) n = some 0 := by simp [findNameIdx]
  simp only [removeNameSwap, h0]
  rcases rest.eq_nil_or_concat with hr | ⟨l2, b, hr⟩
  · subst hr
    simp
  · subst hr
    rw [List.concat_eq_append]
    rw [if_neg (by simp)]
    rw [List.set_cons_zero]
    rw [show (n :: (l2 ++ [b])).getLastD "" = b from by
      rw [List.getLastD_cons, List.getLastD_concat]]
    rw [show b :: (l2 ++ [b]) = (b :: l2) ++ [b] from by simp]
    rw [List.dropLast_concat]
    exact (List.perm_append_singleton b l2).symm

/-- Swap-with-last removal commutes with a non-matching head. -/
theorem removeNameSwap_cons_ne (m : String) (rest : List String) (n : String)
    (hm : ¬(m == n) = true) (hn : n ∈ rest) :
    removeNameSwap (m :: rest) n = m :: removeNameSwap rest n := by
  have hrest : rest ≠ [] := by rintro rfl; cases hn
  obtain ⟨j, hj⟩ : ∃ j, findNameIdx rest n = some j := by
    cases hf : findNameIdx rest n with
    | none => exact absurd ((findNameIdx_eq_none_iff rest n).1 hf) (not_not_intro hn)
    | some j => exact ⟨j, rfl⟩
  have hcons : findNameIdx (m :: rest) n = some (j + 1) := by
    unfold findNameIdx
    rw [if_neg hm, hj]
    rfl
  have hjlt : j < rest.length := findNameIdx_lt_length rest n j hj
  simp only [removeNameSwap, hcons, hj]
  by_cases hend : j + 1 = (m :: rest).length - 1
  · have hj2 : j = rest.length - 1 := by
      simp [List.length_cons] at hend
      omega
    rw [if_pos hend, if_pos hj2, dropLast_cons_ne m rest hrest]
  · have hj2 : ¬j = rest.length - 1 := by
      simp only [List.length_cons] at hend ⊢
      omega
    rw [if_neg hend, if_neg hj2]
    rw [List.set_cons_succ]
    rw [show (m :: rest).getLastD "" = rest.getLastD "" from by
      rw [List.getLastD_cons]
      exact getLastD_ne_nil rest m "" hrest]
    rw [dropLast_cons_ne _ _ (List.ne_nil_of_length_pos (by rw [List.length_set]; omega))]

/-- Swap-with-last removal of a present name is, up to order, the erasure of
one occurrence of that name. -/
theorem removeNameSwap_perm (ns : List String) (n : String) (h : n ∈ ns) :
    (removeNameSwap ns n).Perm (ns.erase n) := by
  induction ns with
  | nil => cases h
  | cons m rest ih =>
    by_cases hm : (m == n) = true
    · have hmn : m = n := eq_of_beq hm
      subst hmn
      rw [List.erase_cons_head]
      exact removeNameSwap_cons_self m rest
    · have hn : n ∈ rest := by
        rcases List.mem_cons.1 h with h1 | h2
        · exact absurd (by simp [h1] : (m == n) = true) hm
        · exact h2
      rw [removeNameSwap_cons_ne m rest n hm hn]
      rw [List.erase_cons_tail hm]
      exact List.Perm.cons m (ih hn)

/-- A single authorized `setToolPolicyParameterForDelegatee` succeeds and
performs exactly the name registration and value overwrite, leaving the
ownership and registration state untouched. -/
theorem setParam_spec (l : ParamStore) (caller pkpTokenId : Nat)
    (toolIpfsCid : String) (delegatee : Nat) (parameterName : String)
    (v : List Nat) (hd : delegatee ≠ 0)
    (hreg : l.registered pkpTokenId toolIpfsCid = true)
    (hown : caller = l.ownerOf pkpTokenId) :
    ∃ l2,
      setToolPolicyParameterForDelegatee l caller pkpTokenId toolIpfsCid delegatee
        parameterName v = .ok l2 ∧
      l2.names pkpTokenId toolIpfsCid delegatee =
        registerNameIfAbsent (l.names pkpTokenId toolIpfsCid delegatee) parameterName ∧
      l2.values pkpTokenId toolIpfsCid delegatee parameterName = v ∧
      l2.ownerOf = l.ownerOf ∧ l2.registered = l.registered := by
  refine ⟨{ l with
    names := fun p t d =>
      if p = pkpTokenId ∧ t = toolIpfsCid ∧ d = delegatee then
        registerNameIfAbsent (l.names pkpTokenId toolIpfsCid delegatee) parameterName
      else l.names p t d,
    values := fun p t d n =>
      if p = pkpTokenId ∧ t = toolIpfsCid ∧ d = delegatee ∧ n = parameterName then
        v
      else l.values p t d n }, ?_, ?_, ?_, rfl, rfl⟩
  · simp [setToolPolicyParameterForDelegatee, onlyPKPOwner, verifyToolRegistered,
      hown, hd, hreg]
  · simp
  · simp

/-- Any number of authorized repeated single-name writes succeeds; a nonempty
write sequence leaves the name with exactly one occurrence (given the
at-most-once reachable-state invariant) and stores the last written value. -/
theorem setParamsSeq_spec (caller pkpTokenId : Nat) (toolIpfsCid : String)
    (delegatee : Nat) (parameterName : String) :
    ∀ (vs : List (List Nat)) (l : ParamStore), delegatee ≠ 0 →
      l.registered pkpTokenId toolIpfsCid = true →
      caller = l.ownerOf pkpTokenId →
      (l.names pkpTokenId toolIpfsCid delegatee).count parameterName ≤ 1 →
      ∃ lN,
        setParamsSeq caller pkpTokenId toolIpfsCid delegatee parameterName l vs = .ok lN ∧
        lN.registered = l.registered ∧ lN.ownerOf = l.ownerOf ∧
        (vs = [] → lN = l) ∧
        (vs ≠ [] →
          (lN.names pkpTokenId toolIpfsCid delegatee).count parameterName = 1 ∧
          lN.values pkpTokenId toolIpfsCid delegatee parameterName = vs.getLastD []) := by
  intro vs
  induction vs with
  | nil =>
    intro l _ _ _ _
    exact ⟨l, rfl, rfl, rfl, fun _ => rfl, fun h => absurd rfl h⟩
  | cons v vs ih =>
    intro l hd hreg hown hcount
    obtain ⟨l2, hset, hnames, hval, howner2, hreg2⟩ :=
      setParam_spec l caller pkpTokenId toolIpfsCid delegatee parameterName v hd hreg hown
    have hreg2' : l2.registered pkpTokenId toolIpfsCid = true := by rw [hreg2]; exact hreg
    have hown2' : caller = l2.ownerOf pkpTokenId := by rw [howner2]; exact hown
    have hcount2 : (l2.names pkpTokenId toolIpfsCid delegatee).count parameterName = 1 := by
      rw [hnames]
      exact count_registerNameIfAbsent _ _ hcount
    obtain ⟨lN, hseq, hregN, hownN, hnil, hne⟩ :=
      ih l2 hd hreg2' hown2' (le_of_eq hcount2)
    refine ⟨lN, ?_, ?_, ?_, fun h => absurd h (by simp), fun _ => ?_⟩
    · simp only [setParamsSeq, hset]
      exact hseq
    · rw [hregN, hreg2]
    · rw [hownN, howner2]
    · cases hvs : vs with
      | nil =>
        subst hvs
        have hlN : lN = l2 := hnil rfl
        subst hlN
        exact ⟨hcount2, by simp [hval]⟩
      | cons w ws =>
        have hvs' : vs ≠ [] := by rw [hvs]; simp
        obtain ⟨hc, hv⟩ := hne hvs'
        refine ⟨hc, ?_⟩
        rw [hv, hvs]
        simp [List.getLastD_cons]

/-- For equal-length argument arrays, the batch loop is the left fold of the
single-item setter over the paired arguments. -/
theorem batchSetGo_eq_foldlM (caller pkpTokenId : Nat) (toolIpfsCid : String)
    (delegatee : Nat) :
    ∀ (ns : List String) (vs : List (List Nat)) (l : ParamStore),
      ns.length = vs.length →
      batchSetGo caller pkpTokenId toolIpfsCid delegatee l ns vs =
        (ns.zip vs).foldlM
          (fun acc p =>
            setToolPolicyParameterForDelegatee acc caller pkpTokenId toolIpfsCid
              delegatee p.1 p.2) l := by
  intro ns
  induction ns with
  | nil =>
    intro vs l h
    cases vs with
    | nil => simp [batchSetGo, pure, Except.pure]
    | cons v vs => simp at h
  | cons n ns ih =>
    intro vs l h
    cases vs with
    | nil => simp at h
    | cons v vs =>
      rw [List.zip_cons_cons, List.foldlM_cons]
      cases hset : setToolPolicyParameterForDelegatee l caller pkpTokenId toolIpfsCid
          delegatee n v with
      | error e => simp [batchSetGo, hset, Bind.bind, Except.bind]
      | ok l2 =>
        have hlen : ns.length = vs.length := by simpa using h
        simp [batchSetGo, hset, Bind.bind, Except.bind, ih vs l2 hlen]

/-- A successful regex match implies the `includes` check also succeeds. -/
theorem containsErrorMarker_of_capture (cs : List Char) (cap : List Char)
    (h : firstErrorCapture cs = some cap) : containsErrorMarker cs = true := by
  induction cs with
  | nil => simp [firstErrorCapture] at h
  | cons c rest ih =>
    unfold firstErrorCapture at h
    unfold containsErrorMarker
    cases hcap : errorCaptureAt (c :: rest) with
    | some cap2 =>
      have hpre : isMarkerPrefix (c :: rest) = true := by
        unfold errorCaptureAt at hcap
        unfold isMarkerPrefix
        cases c
        revert hcap
        split <;> intro hcap <;> first | rfl | simp_all
      simp [hpre]
    | none =>
      rw [hcap] at h
      rw [ih h]
      simp

/-! ### Claim theorems -/

/-- C8: for every gas estimate `g` the registry client's transaction gas
limit equals `(g * 120) / 100` with truncating integer arithmetic (multiply
first, then divide): the limit `L` satisfies `100 * L ≤ g * 120 < 100 * (L + 1)`;
in particular estimate 1000 yields limit 1200 and estimate 1001 yields
limit 1201. -/
theorem c8_gas_limit_buffer (contractAddress data : String) (g : Nat) :
    (setToolPolicyFinalTx contractAddress data g).gasLimit = g * 120 / 100 ∧
    100 * (setToolPolicyFinalTx contractAddress data g).gasLimit ≤ g * 120 ∧
    g * 120 < 100 * ((setToolPolicyFinalTx contractAddress data g).gasLimit + 1) ∧
    (setToolPolicyFinalTx contractAddress data 1000).gasLimit = 1200 ∧
    (setToolPolicyFinalTx contractAddress data 1001).gasLimit = 1201 := by
  refine ⟨rfl, ?_, ?_, by norm_num [setToolPolicyFinalTx, gasLimitWithBuffer],
    by norm_num [setToolPolicyFinalTx, gasLimitWithBuffer]⟩
  · have h1 := Nat.div_add_mod (g * 120) 100
    have h2 : (g * 120) % 100 < 100 := Nat.mod_lt _ (by norm_num)
    simp only [setToolPolicyFinalTx, gasLimitWithBuffer]
    omega
  · have h1 := Nat.div_add_mod (g * 120) 100
    have h2 : (g * 120) % 100 < 100 := Nat.mod_lt _ (by norm_num)
    simp only [setToolPolicyFinalTx, gasLimitWithBuffer]
    omega

/-- C10: the read-only getters `getToolPolicyParameterNamesForDelegatee` and
`getToolPolicyParameterForDelegatee` fail for the zero delegatee and for a
tool not registered under the PKP, exactly like the mutating calls; they
demand no ownership proof, so an authorized state is read back unconditionally. -/
theorem c10_read_preconditions (l : ParamStore) (pkpTokenId : Nat)
    (toolIpfsCid : String) (parameterName : String) :
    (∀ delegatee, delegatee = 0 →
      getToolPolicyParameterNamesForDelegatee l pkpTokenId toolIpfsCid delegatee =
        .error .invalidDelegatee ∧
      getToolPolicyParameterForDelegatee l pkpTokenId toolIpfsCid delegatee
        parameterName = .error .invalidDelegatee) ∧
    (∀ delegatee, delegatee ≠ 0 →
      l.registered pkpTokenId toolIpfsCid = false →
      getToolPolicyParameterNamesForDelegatee l pkpTokenId toolIpfsCid delegatee =
        .error .toolNotRegistered ∧
      getToolPolicyParameterForDelegatee l pkpTokenId toolIpfsCid delegatee
        parameterName = .error .toolNotRegistered) ∧
    (∀ delegatee, delegatee ≠ 0 →
      l.registered pkpTokenId toolIpfsCid = true →
      getToolPolicyParameterNamesForDelegatee l pkpTokenId toolIpfsCid delegatee =
        .ok (l.names pkpTokenId toolIpfsCid delegatee) ∧
      getToolPolicyParameterForDelegatee l pkpTokenId toolIpfsCid delegatee
        parameterName = .ok (l.values pkpTokenId toolIpfsCid delegatee parameterName)) := by
  refine ⟨fun delegatee hd => ?_, fun delegatee hd hreg => ?_, fun delegatee hd hreg => ?_⟩
  · constructor <;>
      simp [getToolPolicyParameterNamesForDelegatee, getToolPolicyParameterForDelegatee, hd]
  · constructor <;>
      simp [getToolPolicyParameterNamesForDelegatee, getToolPolicyParameterForDelegatee,
        verifyToolRegistered, hd, hreg]
  · constructor <;>
      simp [getToolPolicyParameterNamesForDelegatee, getToolPolicyParameterForDelegatee,
        verifyToolRegistered, hd, hreg]

/-- C10 witness: concrete read calls on `sampleStore` (owned by address 7):
the zero delegatee and the unregistered tool fail, and a registered pair
reads back without any ownership argument. -/
theorem c10_read_preconditions_witness :
    (getToolPolicyParameterNamesForDelegatee sampleStore 1 "cid" 0 =
        .error .invalidDelegatee ∧
      getToolPolicyParameterForDelegatee sampleStore 1 "cid" 0 "p" =
        .error .invalidDelegatee) ∧
    (getToolPolicyParameterNamesForDelegatee sampleStore 1 "nope" 2 =
        .error .toolNotRegistered ∧
      getToolPolicyParameterForDelegatee sampleStore 1 "nope" 2 "p" =
        .error .toolNotRegistered) ∧
    (getToolPolicyParameterNamesForDelegatee sampleStore 1 "cid" 2 = .ok [] ∧
      getToolPolicyParameterForDelegatee sampleStore 1 "cid" 2 "p" = .ok []) := by
  refine ⟨(c10_read_preconditions sampleStore 1 "cid" "p").1 0 rfl, ?_, ?_⟩
  · exact (c10_read_preconditions sampleStore 1 "nope" "p").2.1 2 (by decide) (by decide)
  · exact (c10_read_preconditions sampleStore 1 "cid" "p").2.2 2 (by decide) (by decide)

/-- C5: for every non-zero delegatee and tool registered under a PKP, any
nonempty sequence of owner calls to `setToolPolicyParameterForDelegatee` with
the same parameter name succeeds, the list returned by
`getToolPolicyParameterNamesForDelegatee` then contains that name exactly
once, and `getToolPolicyParameterForDelegatee` returns the last value
written.  The occurrence bound on the starting state is the reachable-state
invariant (the insertion is duplicate-protected, `count_registerNameIfAbsent_le`). -/
theorem c5_set_parameter_name_unique (l : ParamStore) (caller pkpTokenId : Nat)
    (toolIpfsCid : String) (delegatee : Nat) (parameterName : String)
    (vs : List (List Nat)) (hd : delegatee ≠ 0)
    (hreg : l.registered pkpTokenId toolIpfsCid = true)
    (hown : caller = l.ownerOf pkpTokenId)
    (hcount : (l.names pkpTokenId toolIpfsCid delegatee).count parameterName ≤ 1)
    (hvs : vs ≠ []) :
    ∃ lN,
      setParamsSeq caller pkpTokenId toolIpfsCid delegatee parameterName l vs = .ok lN ∧
      (∃ ns, getToolPolicyParameterNamesForDelegatee lN pkpTokenId toolIpfsCid
          delegatee = .ok ns ∧ ns.count parameterName = 1) ∧
      getToolPolicyParameterForDelegatee lN pkpTokenId toolIpfsCid delegatee
        parameterName = .ok (vs.getLastD []) := by
  obtain ⟨lN, hseq, hregN, hownN, _, hne⟩ :=
    setParamsSeq_spec caller pkpTokenId toolIpfsCid delegatee parameterName vs l
      hd hreg hown hcount
  obtain ⟨hc, hv⟩ := hne hvs
  have hregN' : lN.registered pkpTokenId toolIpfsCid = true := by rw [hregN]; exact hreg
  refine ⟨lN, hseq, ⟨lN.names pkpTokenId toolIpfsCid delegatee, ?_, hc⟩, ?_⟩
  · simp [getToolPolicyParameterNamesForDelegatee, verifyToolRegistered, hd, hregN']
  · simp [getToolPolicyParameterForDelegatee, verifyToolRegistered, hd, hregN', hv]

/-- C5 witness: writing `p := [1]` then `p := [2]` on the empty sample store
leaves one occurrence of `p` and the value `[2]`. -/
theorem c5_set_parameter_name_unique_witness :
    ∃ lN,
      setParamsSeq 7 1 "cid" 2 "p" sampleStore [[1], [2]] = .ok lN ∧
      (∃ ns, getToolPolicyParameterNamesForDelegatee lN 1 "cid" 2 = .ok ns ∧
        ns.count "p" = 1) ∧
      getToolPolicyParameterForDelegatee lN 1 "cid" 2 "p" = .ok [2] :=
  c5_set_parameter_name_unique sampleStore 7 1 "cid" 2 "p" [[1], [2]]
    (by decide) (by decide) rfl (by decide) (by decide)

/-- C6: an authorized `removeToolPolicyParameterForDelegatee` with a name
absent from the per-triple list succeeds and returns the state unchanged
(the unconditional value delete rewrites the entry to the empty `bytes` it
already holds in any list-value-consistent state); with the name present it
succeeds, the surviving name list is a permutation of the original with one
occurrence of the name erased (swap-with-last changes order only), the
removed name's value is deleted and every other stored value is untouched. -/
theorem c6_remove_parameter_behavior (l : ParamStore) (caller pkpTokenId : Nat)
    (toolIpfsCid : String) (delegatee : Nat) (parameterName : String)
    (hd : delegatee ≠ 0) (hreg : l.registered pkpTokenId toolIpfsCid = true)
    (hown : caller = l.ownerOf pkpTokenId) :
    (parameterName ∉ l.names pkpTokenId toolIpfsCid delegatee →
      l.values pkpTokenId toolIpfsCid delegatee parameterName = [] →
      removeToolPolicyParameterForDelegatee l caller pkpTokenId toolIpfsCid delegatee
        parameterName = .ok l) ∧
    (parameterName ∈ l.names pkpTokenId toolIpfsCid delegatee →
      ∃ l2,
        removeToolPolicyParameterForDelegatee l caller pkpTokenId toolIpfsCid delegatee
          parameterName = .ok l2 ∧
        (l2.names pkpTokenId toolIpfsCid delegatee).Perm
          ((l.names pkpTokenId toolIpfsCid delegatee).erase parameterName) ∧
        l2.values pkpTokenId toolIpfsCid delegatee parameterName = [] ∧
        (∀ n2, n2 ≠ parameterName →
          l2.values pkpTokenId toolIpfsCid delegatee n2 =
            l.values pkpTokenId toolIpfsCid delegatee n2)) := by
  constructor
  · intro habs hval
    obtain ⟨ln, lv, lo, lr⟩ := l
    simp only [removeToolPolicyParameterForDelegatee, onlyPKPOwner, verifyToolRegistered] at *
    rw [if_pos hown.symm.symm]
    rw [if_neg hd, if_pos hreg]
    refine congrArg Except.ok ?_
    refine congrArg₂ (fun a b => ParamStore.mk a b lo lr) ?_ ?_
    · funext p t d
      by_cases hc : p = pkpTokenId ∧ t = toolIpfsCid ∧ d = delegatee
      · obtain ⟨rfl, rfl, rfl⟩ := hc
        simp [removeNameSwap_eq_of_not_mem _ _ habs]
      · simp [hc]
    · funext p t d n
      by_cases hc : p = pkpTokenId ∧ t = toolIpfsCid ∧ d = delegatee ∧ n = parameterName
      · obtain ⟨rfl, rfl, rfl, rfl⟩ := hc
        simp [hval.symm]
      · simp [hc]
  · intro hmem
    refine ⟨{ l with
      names := fun p t d =>
        if p = pkpTokenId ∧ t = toolIpfsCid ∧ d = delegatee then
          removeNameSwap (l.names pkpTokenId toolIpfsCid delegatee) parameterName
        else l.names p t d,
      values := fun p t d n =>
        if p = pkpTokenId ∧ t = toolIpfsCid ∧ d = delegatee ∧ n = parameterName then
          []
        else l.values p t d n }, ?_, ?_, ?_, ?_⟩
    · simp [removeToolPolicyParameterForDelegatee, onlyPKPOwner, verifyToolRegistered,
        hown, hd, hreg]
    · simpa using removeNameSwap_perm _ _ hmem
    · simp
    · intro n2 hn2
      simp [hn2]

/-- C6 witness: on `sampleStore2` (names `a`, `b` everywhere), removing the
absent name `c` returns the store unchanged;

the instantiated present-name branch is carried along as part of the
conjunction. -/
theorem c6_remove_parameter_behavior_witness :
    (("c" ∉ sampleStore2.names 1 "cid" 2) →
      sampleStore2.values 1 "cid" 2 "c" = [] →
      removeToolPolicyParameterForDelegatee sampleStore2 7 1 "cid" 2 "c" =
        .ok sampleStore2) ∧
    (("c" ∈ sampleStore2.names 1 "cid" 2) →
      ∃ l2,
        removeToolPolicyParameterForDelegatee sampleStore2 7 1 "cid" 2 "c" = .ok l2 ∧
        (l2.names 1 "cid" 2).Perm ((sampleStore2.names 1 "cid" 2).erase "c") ∧
        l2.values 1 "cid" 2 "c" = [] ∧
        (∀ n2, n2 ≠ "c" → l2.values 1 "cid" 2 n2 = sampleStore2.values 1 "cid" 2 n2)) :=
  c6_remove_parameter_behavior sampleStore2 7 1 "cid" 2 "c"
    (by decide) (by decide) rfl

/-- C7: `batchSetToolPolicyParametersForDelegatee` called by the owner with
name and value arrays of different lengths reverts with
`ArrayLengthMismatch` before processing any element (the `Except.error`
models the Solidity revert: no partial state persists); with equal lengths
it is exactly the ordered left fold of the single-item setter over the
paired arguments. -/
theorem c7_batch_set_length_check (l : ParamStore) (caller pkpTokenId : Nat)
    (toolIpfsCid : String) (delegatee : Nat) (parameterNames : List String)
    (parameterValues : List (List Nat)) (hown : caller = l.ownerOf pkpTokenId) :
    (parameterNames.length ≠ parameterValues.length →
      batchSetToolPolicyParametersForDelegatee l caller pkpTokenId toolIpfsCid
        delegatee parameterNames parameterValues = .error .arrayLengthMismatch) ∧
    (parameterNames.length = parameterValues.length →
      batchSetToolPolicyParametersForDelegatee l caller pkpTokenId toolIpfsCid
        delegatee parameterNames parameterValues =
        (parameterNames.zip parameterValues).foldlM
          (fun acc p =>
            setToolPolicyParameterForDelegatee acc caller pkpTokenId toolIpfsCid
              delegatee p.1 p.2) l) := by
  have hO : onlyPKPOwner l caller pkpTokenId = Except.ok () := by
    simp [onlyPKPOwner, hown]
  constructor
  · intro hlen
    simp [batchSetToolPolicyParametersForDelegatee, hO, hlen]
  · intro hlen
    simp only [batchSetToolPolicyParametersForDelegatee, hO,
      if_neg (show ¬parameterNames.length ≠ parameterValues.length from by omega)]
    exact batchSetGo_eq_foldlM caller pkpTokenId toolIpfsCid delegatee
      parameterNames parameterValues l hlen

/-- C7 witness: two names with a single value revert with the length
mismatch; one name with one value runs the single-item fold. -/
theorem c7_batch_set_length_check_witness :
    batchSetToolPolicyParametersForDelegatee sampleStore 7 1 "cid" 2 ["p", "q"]
      [[1]] = .error .arrayLengthMismatch ∧
    batchSetToolPolicyParametersForDelegatee sampleStore 7 1 "cid" 2 ["p"] [[1]] =
      ([("p", [1])] : List (String × List Nat)).foldlM
        (fun acc p =>
          setToolPolicyParameterForDelegatee acc 7 1 "cid" 2 p.1 p.2) sampleStore :=
  ⟨(c7_batch_set_length_check sampleStore 7 1 "cid" 2 ["p", "q"] [[1]] rfl).1
      (by decide),
    (c7_batch_set_length_check sampleStore 7 1 "cid" 2 ["p"] [[1]] rfl).2 rfl⟩

/-- C1: at the boundary of `executeTool`, a pipeline failure that is a
`LitAgentError` resolves to `{success:false, reason: message}` and is never
thrown, while any other failure is thrown as a `TOOL_EXECUTION_FAILED`
`LitAgentError` wrapping it (its message when it is an `Error`, a generic
message otherwise, plus the tool id and initial parameters) and never
resolves. -/
theorem c1_top_level_error_asymmetry (env : AgentEnv) (ipfsCid : String)
    (initialParams : Params) (e : JsError) (tr : List AgentEvent)
    (h : runExecuteTool env = (.error e, tr)) :
    (∀ t m c, e = .lit t m c →
      executeTool env ipfsCid initialParams =
        (.ok { success := false, reason := some m, result := none }, tr)) ∧
    (isLitAgentError e = false →
      executeTool env ipfsCid initialParams =
        (.error (.lit .TOOL_EXECUTION_FAILED (wrapMessage e)
          (.executionCtx ipfsCid initialParams)), tr)) := by
  constructor
  · rintro t m c rfl
    simp [executeTool, h]
  · intro hlit
    cases e with
    | lit t m c => simp [isLitAgentError] at hlit
    | plain m => simp [executeTool, h]
    | nonError p => simp [executeTool, h]

/-- C1 witness: `c1Env` fails at tool resolution with a tagged
`TOOL_VALIDATION_FAILED` error, and the call resolves with
`{success:false, reason:"boom"}` instead of throwing. -/
theorem c1_top_level_error_asymmetry_witness :
    executeTool c1Env "cid" [] =
      (.ok { success := false, reason := some "boom", result := none }, []) :=
  (c1_top_level_error_asymmetry c1Env "cid" []
    (.lit .TOOL_VALIDATION_FAILED "boom" .noCtx) [] rfl).1
    .TOOL_VALIDATION_FAILED "boom" .noCtx rfl

/-- C3: a failure inside the policy-fetch try block whose `Error` message is
exactly `Tool policy manager not initialized` is swallowed — the decoded
policy stays null and the pipeline proceeds — while every other failure of
that block propagates unchanged. -/
theorem c3_policy_read_swallow (fetch : Except JsError (List Nat))
    (decode : Except JsError PolicyVal) (e : JsError)
    (h : policyFetchAttempt fetch decode = .error e) :
    (errMessage e = some "Tool policy manager not initialized" →
      policyFetchStage fetch decode = .ok none) ∧
    (errMessage e ≠ some "Tool policy manager not initialized" →
      policyFetchStage fetch decode = .error e) := by
  constructor
  · intro hm
    simp [policyFetchStage, h, hm]
  · intro hm
    simp [policyFetchStage, h, hm]

/-- C3 witness: a plain `Error` reading `Tool policy manager not initialized`
is swallowed, while a different read failure propagates unchanged. -/
theorem c3_policy_read_swallow_witness :
    policyFetchStage (.error (.plain "Tool policy manager not initialized"))
      (.ok "") = .ok none ∧
    policyFetchStage (.error (.plain "network down")) (.ok "") =
      .error (.plain "network down") :=
  ⟨(c3_policy_read_swallow (.error (.plain "Tool policy manager not initialized"))
      (.ok "") (.plain "Tool policy manager not initialized") rfl).1 rfl,
    (c3_policy_read_swallow (.error (.plain "network down")) (.ok "")
      (.plain "network down") rfl).2 (by decide)⟩

/-- C4 counterexample: in `c4EnvSecondFailure` the decoded policy is present,
the first validation fails, the supplied callback returns replacement
parameters and the second validation fails, yet the pipeline does NOT
terminate with a failure carrying the tool/policy context: it throws a
`TOOL_EXECUTION_FAILED` error whose context is the execution context
(tool id and initial parameters, no policy), produced by the boundary wrap
of the raw validation `Error` — refuting the claim's final clause. -/
theorem c4_counterexample :
    executeTool c4EnvSecondFailure "QmSwap" [("amount", "5")] =
      (.error (.lit .TOOL_EXECUTION_FAILED
          "Replacement amount still exceeds policy maximum"
          (.executionCtx "QmSwap" [("amount", "5")])),
        [.validateCall [("amount", "5")], .policyCallbackCall,
          .validateCall [("amount", "9")]]) ∧
    returnedFailure (executeTool c4EnvSecondFailure "QmSwap" [("amount", "5")]).1 =
      false ∧
    thrownCtx (executeTool c4EnvSecondFailure "QmSwap" [("amount", "5")]).1 =
      some (.executionCtx "QmSwap" [("amount", "5")]) ∧
    errCtxPolicy (.executionCtx "QmSwap" [("amount", "5")]) = none :=
  ⟨rfl, rfl, rfl, rfl⟩

/-- C4 (amended): with a decoded policy, a failing first validation and a
supplied `failedPolicyCallback`, the callback is invoked exactly once; if it
returns replacement parameters they are validated exactly once more (the
interaction trace is exactly first validation, callback, second validation);
if that second validation fails, the raw validation `Error` propagates and
`executeTool` throws it wrapped as `TOOL_EXECUTION_FAILED` with the tool id
and initial parameters (not the tool/policy context); if the callback
returns no replacement, the pipeline terminates with a returned
`{success:false}` failure whose reason is the validation error message, the
underlying tagged error carrying the tool/policy context. -/
theorem c4_validation_retry_amended (env : AgentEnv) (ipfsCid : String)
    (p0 : Params) (tool : ToolMeta) (tx : Option String) (ps : Params)
    (policy : PolicyVal) (m : String)
    (cb : Params → PolicyVal → String → Except JsError (Option Params))
    (h1 : env.findTool = .ok tool)
    (h2 : env.permission = .ok tx)
    (h3 : env.collectParams = .ok ps)
    (h4 : policyFetchStage env.fetchPolicy env.decodePolicy = .ok (some policy))
    (h5 : env.validateOutcome 0 ps = .error m)
    (h6 : env.failedPolicyCallback = some cb) :
    (validationStage env tool policy ps).2.count .policyCallbackCall = 1 ∧
    (∀ np, cb ps policy m = .ok (some np) →
      (validationStage env tool policy ps).2 =
        [.validateCall ps, .policyCallbackCall, .validateCall np]) ∧
    (∀ np m2, cb ps policy m = .ok (some np) →
      env.validateOutcome 1 np = .error m2 →
      executeTool env ipfsCid p0 =
        (.error (.lit .TOOL_EXECUTION_FAILED m2 (.executionCtx ipfsCid p0)),
          [.validateCall ps, .policyCallbackCall, .validateCall np])) ∧
    (cb ps policy m = .ok none →
      executeTool env ipfsCid p0 =
        (.ok { success := false, reason := some m, result := none },
          [.validateCall ps, .policyCallbackCall]) ∧
      (validationStage env tool policy ps).1 =
        .error (.lit .TOOL_VALIDATION_FAILED m (.validationCtx tool.name policy))) := by
  refine ⟨?_, ?_, ?_, ?_⟩
  · cases hcb : cb ps policy m with
    | error e => simp [validationStage, h5, h6, hcb, List.count_cons]
    | ok o =>
      cases o with
      | none => simp [validationStage, h5, h6, hcb, List.count_cons]
      | some np =>
        cases hv2 : env.validateOutcome 1 np with
        | ok u => simp [validationStage, h5, h6, hcb, hv2, List.count_cons]
        | error m2 => simp [validationStage, h5, h6, hcb, hv2, List.count_cons]
  · intro np hcb
    cases hv2 : env.validateOutcome 1 np with
    | ok u => simp [validationStage, h5, h6, hcb, hv2]
    | error m2 => simp [validationStage, h5, h6, hcb, hv2]
  · intro np m2 hcb hv2
    have hstage : validationStage env tool policy ps =
        (.error (.plain m2),
          [.validateCall ps, .policyCallbackCall, .validateCall np]) := by
      simp [validationStage, h5, h6, hcb, hv2]
    have hrun : runExecuteTool env =
        (.error (.plain m2),
          [.validateCall ps, .policyCallbackCall, .validateCall np]) := by
      simp [runExecuteTool, h1, h2, h3, h4, permissionStage, hstage]
    simp [executeTool, hrun, wrapMessage]
  · intro hcb
    have hstage : validationStage env tool policy ps =
        (.error (.lit .TOOL_VALIDATION_FAILED m (.validationCtx tool.name policy)),
          [.validateCall ps, .policyCallbackCall]) := by
      simp [validationStage, h5, h6, hcb]
    have hrun : runExecuteTool env =
        (.error (.lit .TOOL_VALIDATION_FAILED m (.validationCtx tool.name policy)),
          [.validateCall ps, .policyCallbackCall]) := by
      simp [runExecuteTool, h1, h2, h3, h4, permissionStage, hstage]
    exact ⟨by simp [executeTool, hrun], by simp [hstage]⟩

/-- C4 witness: in `c4EnvNoReplacement` the callback declines to supply
replacement parameters and the call resolves with the returned failure,
the underlying tagged error carrying the tool/policy context. -/
theorem c4_validation_retry_amended_witness :
    executeTool c4EnvNoReplacement "QmSwap" [("amount", "5")] =
      (.ok ⟨false, some "Amount exceeds policy maximum", none⟩,
        [.validateCall [("amount", "5")], .policyCallbackCall]) ∧
    (validationStage c4EnvNoReplacement ⟨"swap", "token swap"⟩
        "maxAmount:3" [("amount", "5")]).1 =
      .error (.lit .TOOL_VALIDATION_FAILED "Amount exceeds policy maximum"
        (.validationCtx "swap" "maxAmount:3")) :=
  (c4_validation_retry_amended c4EnvNoReplacement "QmSwap" [("amount", "5")]
    ⟨"swap", "token swap"⟩ none [("amount", "5")]
    "maxAmount:3" "Amount exceeds policy maximum" (fun _ _ _ => .ok none)
    rfl rfl rfl rfl rfl rfl).2.2.2 rfl

/-- C2 counterexample: `c2Raw`'s logs contain the substring `Error:` (the
second conjunct), but the marker is immediately followed by a newline, so
`/Error:([^\n]+)/` has no match and the pipeline returns Success with the
raw result — not the non-throwing failure the claim requires whenever the
logs contain `Error:`. -/
theorem c2_counterexample :
    executeTool c2Env "cid" [] =
      (.ok { success := true, reason := none, result := some c2Raw },
        [.executeCall]) ∧
    containsErrorMarker (String.toList "Error:\nmore") = true :=
  ⟨rfl, rfl⟩

/-- C2 (amended): the fixed interpretation precedence.  (1) A truthy response
that parses with `status === 'error'` yields a non-throwing failure whose
reason starts from the `error` field and appends the `Reason:`/`Code:`/
`Details:` lines for the detail fields that exist AND are truthy, regardless
of the logs.  (2) Otherwise, when the logs contain `Error:` followed by at
least one non-newline character, the failure reason is `Lit Action error: `
plus the first such capture trimmed.  (3) Otherwise the result is Success
carrying the raw result.  The spec's two concrete examples and the
falsy-`code` correction are instantiated in the final conjuncts. -/
theorem c2_result_interpretation_amended :
    (∀ (res : RawResult) (s : String) (r : Json), res.response = some s →
      s.isEmpty = false → isStatusError r = true →
      interpretResult res (some r) =
        { success := false, reason := some (buildJsonErrorReason r),
          result := some res }) ∧
    (∀ (res : RawResult) (parsed : Option Json) (logs : String) (cap : List Char),
      jsonFailureReason res parsed = none → res.logs = some logs →
      firstErrorCapture logs.toList = some cap →
      interpretResult res parsed =
        { success := false,
          reason := some ("Lit Action error: " ++ String.mk (trimChars cap)),
          result := some res }) ∧
    (∀ (res : RawResult) (parsed : Option Json),
      jsonFailureReason res parsed = none →
      (∀ logs, res.logs = some logs → firstErrorCapture logs.toList = none) →
      interpretResult res parsed =
        { success := true, reason := none, result := some res }) ∧
    interpretResult rawA (some specExampleJson) =
      { success := false, reason := some "bad input\nReason: x\nCode: 42",
        result := some rawA } ∧
    interpretResult rawB none =
      { success := false, reason := some "Lit Action error: oops",
        result := some rawB } ∧
    interpretResult rawZ (some specExampleJsonCodeZero) =
      { success := false, reason := some "bad input\nReason: x",
        result := some rawZ } := by
  refine ⟨?_, ?_, ?_, rfl, rfl, rfl⟩
  · intro res s r hresp hne hstat
    have hjf : jsonFailureReason res (some r) = some (buildJsonErrorReason r) := by
      simp [jsonFailureReason, hresp, hne, hstat]
    simp [interpretResult, hjf]
  · intro res parsed logs cap hjf hlogs hcap
    have hne : logs ≠ "" := by
      intro h
      subst h
      simp [firstErrorCapture] at hcap
    have hempty : logs.isEmpty = false := by
      cases h : logs.isEmpty with
      | false => rfl
      | true => exact absurd ((String.isEmpty_iff logs).1 h) hne
    have hmark := containsErrorMarker_of_capture logs.toList cap hcap
    simp only [String.toList] at hmark hcap
    simp [interpretResult, hjf, hlogs, hempty, hmark, hcap]
  · intro res parsed hjf hnocap
    cases hlogs : res.logs with
    | none => simp [interpretResult, hjf, hlogs]
    | some logs =>
      have hc := hnocap logs hlogs
      simp only [String.toList] at hc
      simp [interpretResult, hjf, hlogs, hc]

/-- C2 witness: the JSON-status branch applied to the spec's example
response, with logs that also carry an `Error:` marker (the JSON path wins). -/
theorem c2_result_interpretation_amended_witness :
    interpretResult rawA (some specExampleJson) =
      { success := false, reason := some (buildJsonErrorReason specExampleJson),
        result := some rawA } :=
  c2_result_interpretation_amended.1 rawA specResponseString specExampleJson
    rfl rfl rfl

/-- C9 counterexample: in `c9Env` the PKP has a registered tool but the
delegatee's permitted set is empty, so the intersection is empty at the
delegatee level; the handler does fail with the `no permitted tools`
condition, but only AFTER the delegatee-selection prompt has occurred (the
recorded interaction trace is nonempty), refuting "before any prompt ...
occurs". -/
theorem c9_counterexample :
    handleUnpermitToolForDelegatee c9Env =
      (.error (.noPermittedTools "No permitted tools found for this delegatee."),
        [.promptDelegatee]) ∧
    (handleUnpermitToolForDelegatee c9Env).2 ≠ [] :=
  ⟨rfl, by decide⟩

/-- C9 (amended): if the PKP-level registered tool set is empty (or absent),
the unpermit flow fails with the `no permitted tools` condition before any
prompt occurs; if the PKP-level set is nonempty but its intersection with
the selected delegatee's permitted set is empty, the flow fails with the
`no permitted tools` condition after the delegatee-selection prompt and
before any tool-selection prompt. -/
theorem c9_unpermit_no_permitted_tools_amended (env : UnpermitEnv) :
    (env.registeredTools = none →
      handleUnpermitToolForDelegatee env =
        (.error (.noPermittedTools "No permitted tools found."), [])) ∧
    (∀ rt, env.registeredTools = some rt →
      (rt.toolsWithPolicies.isEmpty && rt.toolsWithoutPolicies.isEmpty &&
        rt.toolsUnknownWithPolicies.isEmpty) = true →
      handleUnpermitToolForDelegatee env =
        (.error (.noPermittedTools "No permitted tools found."), [])) ∧
    (∀ rt d, env.registeredTools = some rt →
      (rt.toolsWithPolicies.isEmpty && rt.toolsWithoutPolicies.isEmpty &&
        rt.toolsUnknownWithPolicies.isEmpty) = false →
      env.delegateeChoice = some d →
      ((rt.toolsWithPolicies.filter
          (fun c => (env.permittedTools d).contains c)).isEmpty &&
        (rt.toolsWithoutPolicies.filter
          (fun c => (env.permittedTools d).contains c)).isEmpty &&
        (rt.toolsUnknownWithPolicies.filter
          (fun c => (env.permittedTools d).contains c)).isEmpty) = true →
      handleUnpermitToolForDelegatee env =
        (.error (.noPermittedTools "No permitted tools found for this delegatee."),
          [.promptDelegatee])) := by
  refine ⟨?_, ?_, ?_⟩
  · intro h
    simp only [handleUnpermitToolForDelegatee, h]
  · intro rt hrt hempty
    simp only [handleUnpermitToolForDelegatee, hrt]
    rw [if_pos hempty]
  · intro rt d hrt hnonempty hd hfilters
    simp only [handleUnpermitToolForDelegatee, hrt, hd]
    rw [if_neg (by rw [hnonempty]; simp)]
    rw [if_pos hfilters]

/-- C9 witness: `c9Env` instantiates the delegatee-level branch — the PKP
set `["QmA"]` is nonempty, delegatee `0xdead` is permitted nothing, and the
handler fails after exactly the delegatee prompt. -/
theorem c9_unpermit_no_permitted_tools_amended_witness :
    handleUnpermitToolForDelegatee c9Env =
      (.error (.noPermittedTools "No permitted tools found for this delegatee."),
        [.promptDelegatee]) :=
  (c9_unpermit_no_permitted_tools_amended c9Env).2.2 ⟨["QmA"], [], []⟩ "0xdead"
    rfl (by decide) rfl (by decide)
